import Mathlib

/-!
Verification development for the tecno-backend session lifecycle service.

The definitions below are a shallow embedding of the JavaScript source:

* `src/routes/session.js` — the session HTTP handlers (create, save-progress,
  status, submit, abandon);
* `src/models/Session.js` — the session schema (statuses, `totalPages`
  default);
* `src/unnamed/part_002` — the resilience primitives (`retryOperation`,
  `CircuitBreaker`);
* `src/middleware/audit.js` — audit risk scoring and log rotation;
* `src/middleware/healthCheck.js` — health aggregation and readiness.

Mongo documents become Lean structures; the database and the Redis cache
become finite maps `String → Option Session`; handlers become pure state
transformers returning an `ApiResult` together with the next store state.
The cache middleware (`src/middleware/cache.js`) and the redis config are
not part of the provided sources, so the cache-aside lookup is modelled
from the spec where noted.
-/

/-- Session status enum from `src/models/Session.js` (`enum: ['active',
'completed', 'expired', 'abandoned']`). -/
inductive SessionStatus where
  | active
  | completed
  | expired
  | abandoned
deriving DecidableEq, Repr

/-- A session document, embedding the fields of `sessionSchema` that the
handlers read or write.  `surveyData` is the survey-answer object, modelled
as a partial map from field name to value; timestamps and network metadata
are elided (no claim depends on their values). -/
structure Session where
  sessionId : String
  status : SessionStatus
  currentPage : Int
  totalPages : Int
  surveyData : String → Option String

/-- A finalized survey document (`src/models/Survey.js`): the snapshot of
`surveyData` persisted by the submit handler. -/
structure SurveyRecord where
  data : String → Option String

/-- Combined two-tier store state: the authoritative Mongo collection
(`db`), the Redis session cache (`cache`), and the finalized survey
collection (`surveys`). -/
structure Store where
  db : String → Option Session
  cache : String → Option Session
  surveys : List SurveyRecord

/-- Point update of a string-keyed map. -/
def setKey (m : String → Option Session) (k : String) (v : Option Session) :
    String → Option Session :=
  fun x => if x = k then v else m x

/-- Outcome of a session HTTP handler, restricted to the responses the
claims discriminate: success (201/200), the 404 `Session not found`
response, and the 400 `Invalid page number` response. -/
inductive ApiResult (α : Type) where
  | ok : α → ApiResult α
  | notFound : ApiResult α
  | invalidPage : ApiResult α

/-- JavaScript object spread `{ ...old, ...new }` on the survey-data maps:
per field, the right operand wins when it has the field. -/
def mergeData (old new : String → Option String) : String → Option String :=
  fun k => match new k with
    | some v => some v
    | none => old k

/-- The page validation of `PUT /:sessionId/save-progress`
(`src/routes/session.js:86`): `page === undefined || page < 0 || page >= 8`.
The bound is the literal `8`, not the session's `totalPages` field. -/
def pageInvalid (page : Option Int) : Bool :=
  match page with
  | none => true
  | some p => decide (p < 0) || decide (8 ≤ p)

/-- Modelled from the spec: the cache-aside active-session lookup used by
`save-progress` and `submit`.  `src/middleware/cache.js`
(`sessionCacheMiddleware`) is not among the provided sources; per the spec,
the cache is tried first and a miss falls through to the durable store.
The handlers (`src/routes/session.js:94-101, 197-204`) use a cache hit
as-is and query the store with the filter `{ sessionId, status: 'active' }`
only on a miss. -/
def lookupActiveCacheAside (st : Store) (sid : String) : Option Session :=
  match st.cache sid with
  | some s => some s
  | none =>
    match st.db sid with
    | some s => if s.status = .active then some s else none
    | none => none

/-- The session document built by `POST /api/session/create`
(`src/routes/session.js:38-51`): schema defaults give `status: 'active'`,
`currentPage: 0`, `totalPages: 8`; `defaults` stands for the schema's
default `surveyData` object. -/
def mkSession (sid : String) (defaults : String → Option String) : Session :=
  { sessionId := sid
    status := .active
    currentPage := 0
    totalPages := 8
    surveyData := defaults }

/-- Handler `POST /api/session/create`: persist a fresh session and populate the
cache (`src/routes/session.js:50-55`). -/
def createSession (st : Store) (sid : String)
    (defaults : String → Option String) : Store :=
  let s := mkSession sid defaults
  { st with db := setKey st.db sid (some s), cache := setKey st.cache sid (some s) }

/-- Handler `PUT /api/session/:sessionId/save-progress`
(`src/routes/session.js:81-137`): validate the page, look the active
session up cache-aside, spread-merge the partial data into `surveyData`,
raise `currentPage` to the max of the stored and submitted page, write the
store and refresh the cache.  Returns the handler outcome (carrying the
new `currentPage` on success) and the next store state. -/
def saveProgress (st : Store) (sid : String) (page : Option Int)
    (data : String → Option String) : ApiResult Int × Store :=
  if pageInvalid page then (.invalidPage, st)
  else
    match lookupActiveCacheAside st sid, page with
    | none, _ => (.notFound, st)
    | some _, none => (.notFound, st)
    | some s, some p =>
      let s' := { s with
        surveyData := mergeData s.surveyData data
        currentPage := max s.currentPage p }
      (.ok s'.currentPage,
        { st with
          db := setKey st.db sid (some s')
          cache := setKey st.cache sid (some s') })

/-- Handler `GET /api/session/:sessionId/status` (`src/routes/session.js:142-187`):
cache-aside read with no status filter; a store hit repopulates the cache;
absence in both tiers is the 404 response. -/
def getStatus (st : Store) (sid : String) : ApiResult Session × Store :=
  match st.cache sid with
  | some s => (.ok s, st)
  | none =>
    match st.db sid with
    | some s => (.ok s, { st with cache := setKey st.cache sid (some s) })
    | none => (.notFound, st)

/-- Handler `POST /api/session/:sessionId/submit` (`src/routes/session.js:192-277`):
look the active session up cache-aside; on a miss respond 404; otherwise
persist a new finalized survey built from the accumulated `surveyData`,
delete the session document (`Session.deleteOne`) and its cache entry. -/
def submit (st : Store) (sid : String) : ApiResult Unit × Store :=
  match lookupActiveCacheAside st sid with
  | none => (.notFound, st)
  | some s =>
    (.ok (),
      { db := setKey st.db sid none
        cache := setKey st.cache sid none
        surveys := st.surveys ++ [⟨s.surveyData⟩] })

/-- Handler `DELETE /api/session/:sessionId` (`src/routes/session.js:282-313`):
find the session by id alone; absent ⇒ 404; present and `active` ⇒ set
status `abandoned` and save; present in any other status ⇒ respond success
without touching the document. -/
def abandon (st : Store) (sid : String) : ApiResult Unit × Store :=
  match st.db sid with
  | none => (.notFound, st)
  | some s =>
    if s.status = .active then
      (.ok (), { st with db := setKey st.db sid (some { s with status := .abandoned }) })
    else
      (.ok (), st)

/-! ## Resilience primitives (`src/unnamed/part_002`) -/

/-- Circuit breaker states (`src/unnamed/part_002:228`): CLOSED, OPEN,
HALF_OPEN. -/
inductive CBState where
  | CLOSED
  | OPEN
  | HALF_OPEN
deriving DecidableEq, Repr

/-- The `CircuitBreaker` instance state (`src/unnamed/part_002:222-229`):
failure threshold and cooldown are fixed at construction; `failureCount`,
`lastFailureTime` (null until the first failure) and `state` evolve.
Times are integer epoch milliseconds. -/
structure CircuitBreaker where
  failureThreshold : Nat
  timeout : Int
  failureCount : Nat
  lastFailureTime : Option Int
  state : CBState

/-- Constructor `new CircuitBreaker(threshold, timeout)`: starts CLOSED with zero
failures and no recorded failure time. -/
def CircuitBreaker.init (threshold : Nat) (timeout : Int) : CircuitBreaker :=
  { failureThreshold := threshold
    timeout := timeout
    failureCount := 0
    lastFailureTime := none
    state := .CLOSED }

/-- Method `onSuccess` (`src/unnamed/part_002:250-253`): clear the failure count
and close the breaker. -/
def CircuitBreaker.onSuccess (cb : CircuitBreaker) : CircuitBreaker :=
  { cb with failureCount := 0, state := .CLOSED }

/-- Method `onFailure` (`src/unnamed/part_002:255-262`): bump the failure count,
record the failure time, and trip to OPEN once the count reaches the
threshold (otherwise the state is left as it was). -/
def CircuitBreaker.onFailure (cb : CircuitBreaker) (now : Int) : CircuitBreaker :=
  let fc := cb.failureCount + 1
  { cb with
    failureCount := fc
    lastFailureTime := some now
    state := if cb.failureThreshold ≤ fc then .OPEN else cb.state }

/-- Outcome of one `execute` call: rejected without invoking the wrapped
operation, or invoked with the operation succeeding / failing. -/
inductive ExecOutcome where
  | rejected
  | succeeded
  | failed
deriving DecidableEq, Repr

/-- Method `execute` (`src/unnamed/part_002:231-248`), sequentialized: `now` is
`Date.now()` at the call and `opSucceeds` the outcome the wrapped
operation would have.  While OPEN, if `now - lastFailureTime` has not
exceeded the cooldown the call throws without invoking the operation
(JavaScript coerces a null `lastFailureTime` to 0); otherwise the state
moves to HALF_OPEN and the operation runs, with `onSuccess` / `onFailure`
applied to its outcome. -/
def CircuitBreaker.execute (cb : CircuitBreaker) (now : Int) (opSucceeds : Bool) :
    ExecOutcome × CircuitBreaker :=
  match cb.state with
  | .OPEN =>
    if cb.timeout < now - (cb.lastFailureTime.getD 0) then
      let cb1 := { cb with state := .HALF_OPEN }
      if opSucceeds then (.succeeded, cb1.onSuccess) else (.failed, cb1.onFailure now)
    else
      (.rejected, cb)
  | _ =>
    if opSucceeds then (.succeeded, cb.onSuccess) else (.failed, cb.onFailure now)

/-- Trace of `retryOperation` (`src/unnamed/part_002:193-209`) run against
a deterministic schedule of attempt outcomes `op : Nat → Except E A`
(outcome of the i-th invocation, 1-indexed).  `retryFrom op delay attempt
remaining` models the loop with `remaining` iterations left.  The result
is `none` when the loop exits without returning (only possible when
`maxRetries = 0`, where the JavaScript function resolves to `undefined`),
together with the number of invocations made and the list of backoff
waits (`delay * 2 ^ (attempt - 1)`) performed between attempts. -/
def retryFrom (op : Nat → Except E A) (delay : Nat) :
    Nat → Nat → Option (Except E A) × Nat × List Nat
  | _, 0 => (none, 0, [])
  | attempt, remaining + 1 =>
    match op attempt with
    | .ok v => (some (.ok v), 1, [])
    | .error e =>
      if remaining = 0 then
        (some (.error e), 1, [])
      else
        let r := retryFrom op delay (attempt + 1) remaining
        (r.1, r.2.1 + 1, delay * 2 ^ (attempt - 1) :: r.2.2)

/-- Wrapper `retryOperation(operation, maxRetries, delay)`: run the attempt loop
from attempt 1 with `maxRetries` iterations available. -/
def retryOperation (op : Nat → Except E A) (maxRetries delay : Nat) :
    Option (Except E A) × Nat × List Nat :=
  retryFrom op delay 1 maxRetries

/-! ## Audit risk scoring and log rotation (`src/middleware/audit.js`) -/

/-- Substring test on character lists, modelling JavaScript
`String.prototype.includes`. -/
def hasSubstr (pat : List Char) : List Char → Bool
  | [] => pat.isPrefixOf []
  | c :: rest => pat.isPrefixOf (c :: rest) || hasSubstr pat rest

/-- Test `req.url.includes('/admin')` from the privileged-path rule. -/
def urlHasAdmin (url : String) : Bool :=
  hasSubstr "/admin".toList url.toList

/-- Scorer `AuditManager.calculateRisk(req, res, responseTime)`
(`src/middleware/audit.js:271-282`): starts at `'low'` and applies five
reassignments in order, so a later matching rule overrides an earlier
one.  Inputs: request method and URL, the requesting user's role (absent
for anonymous requests), the response status code, and the elapsed
response time in milliseconds. -/
def calculateRisk (method url : String) (userRole : Option String)
    (statusCode responseTime : Int) : String :=
  let r := "low"
  let r := if 500 ≤ statusCode then "high" else r
  let r := if 10000 < responseTime then "high" else r
  let r := if method = "DELETE" then "medium" else r
  let r := if method = "POST" && urlHasAdmin url then "high" else r
  let r := if userRole = some "admin" then "medium" else r
  r

/-- State of one day's audit log: the entries of the active
`audit-<date>.json` file and the archived (rotated) files' entries, in
rotation order.  Entries are abstract (identified by a `Nat`). -/
structure AuditLog where
  active : List Nat
  archives : List (List Nat)
deriving DecidableEq, Repr

/-- Writer `AuditManager.writeToLogFile` (`src/middleware/audit.js:81-112`) for a
single day, with the serialized length of a group of entries abstracted as
`sz`: the existing entries are read back, the new entry appended, and if
the serialized content would exceed `maxLogSize` the current file (still
holding only the old entries) is renamed to an archive and the fresh log
starts with just the new entry. -/
def writeToLogFile (sz : List Nat → Nat) (maxLogSize : Nat)
    (st : AuditLog) (e : Nat) : AuditLog :=
  let logData := st.active ++ [e]
  if maxLogSize < sz logData then
    { active := [e], archives := st.archives ++ [st.active] }
  else
    { active := logData, archives := st.archives }

/-- Log a whole sequence of events, in order, through `writeToLogFile`. -/
def writeAll (sz : List Nat → Nat) (maxLogSize : Nat)
    (st : AuditLog) (es : List Nat) : AuditLog :=
  es.foldl (writeToLogFile sz maxLogSize) st

/-! ## Health aggregation (`src/middleware/healthCheck.js`) -/

/-- Health statuses (`HEALTH_STATUS`, `src/middleware/healthCheck.js:6-10`). -/
inductive Health where
  | healthy
  | degraded
  | unhealthy
deriving DecidableEq, Repr

/-- Overall-status computation of `performHealthCheck`
(`src/middleware/healthCheck.js:303-311`): count unhealthy and degraded
results; any unhealthy result makes the aggregate unhealthy, else any
degraded one makes it degraded, else healthy. -/
def overallStatus (results : List Health) : Health :=
  let unhealthyCount := results.countP (· = .unhealthy)
  let degradedCount := results.countP (· = .degraded)
  if 0 < unhealthyCount then .unhealthy
  else if 0 < degradedCount then .degraded
  else .healthy

/-- Severity rank of a health status; the "worst-of" of a set of probes is
the status of maximal rank. -/
def healthRank : Health → Nat
  | .healthy => 0
  | .degraded => 1
  | .unhealthy => 2

/-- Aggregator `performHealthCheck` (`src/middleware/healthCheck.js:271-338`) on the
four core probe results (database, cache, application, system): when the
`IGNORE_CACHE_HEALTH` environment flag is `'true'` the cache probe's
result is replaced by a synthetic healthy result before aggregation; the
aggregate is `overallStatus` of the assembled results list. -/
def performHealthCheck (ignoreCacheHealth : Bool)
    (db cache app sys : Health) : Health × List Health :=
  let cacheVal := if ignoreCacheHealth then .healthy else cache
  let results := [db, cacheVal, app, sys]
  (overallStatus results, results)

/-- Probe `readinessCheck` (`src/middleware/healthCheck.js:365-402`): ready
exactly when both the database probe and the cache probe report
healthy. -/
def readiness (db cache : Health) : Bool :=
  decide (db = .healthy) && decide (cache = .healthy)

/-! ## Helper lemmas and concrete fixtures -/

theorem setKey_same (m : String → Option Session) (k : String) (v : Option Session) :
    setKey m k v k = v := by
  simp [setKey]

theorem lookupActive_of_coherent (st : Store) (sid : String) (s : Session)
    (hdb : st.db sid = some s) (hact : s.status = .active)
    (hc : st.cache sid = none ∨ st.cache sid = some s) :
    lookupActiveCacheAside st sid = some s := by
  rcases hc with hc | hc <;> simp [lookupActiveCacheAside, hc, hdb, hact]

theorem submit_of_lookup_none (st : Store) (sid : String)
    (h : lookupActiveCacheAside st sid = none) :
    submit st sid = (.notFound, st) := by
  simp [submit, h]

/-- A freshly created session used as a concrete fixture. -/
def exActive : Session := mkSession "s1" (fun _ => none)

/-- A store holding exactly the fresh session `exActive` under id `s1`,
with an empty cache and no finalized surveys. -/
def exStore : Store :=
  { db := setKey (fun _ => none) "s1" (some exActive)
    cache := fun _ => none
    surveys := [] }

/-- A session in the terminal status `completed`. -/
def exCompleted : Session :=
  { sessionId := "s1"
    status := .completed
    currentPage := 0
    totalPages := 8
    surveyData := fun _ => none }

/-- A store holding exactly the terminal session `exCompleted`. -/
def exStoreCompleted : Store :=
  { db := setKey (fun _ => none) "s1" (some exCompleted)
    cache := fun _ => none
    surveys := [] }

/-- A store with no sessions at all (both tiers empty). -/
def exEmptyStore : Store :=
  { db := fun _ => none, cache := fun _ => none, surveys := [] }

/-! ## Claims -/

/-- C1: for every active session (with the cache entry either absent or
coherent with the store), the first `submit` succeeds, deletes the session
(a subsequent `getStatus` returns the 404 not-found response) and appends
exactly one finalized survey record; a second `submit` for the same
`sessionId` returns not-found and leaves the finalized records
unchanged. -/
theorem submit_deletes_session_and_finalizes_once
    (st : Store) (sid : String) (s : Session)
    (hdb : st.db sid = some s) (hact : s.status = .active)
    (hc : st.cache sid = none ∨ st.cache sid = some s) :
    (submit st sid).1 = .ok () ∧
    (submit st sid).2.surveys = st.surveys ++ [⟨s.surveyData⟩] ∧
    (getStatus (submit st sid).2 sid).1 = .notFound ∧
    (submit (submit st sid).2 sid).1 = .notFound ∧
    (submit (submit st sid).2 sid).2.surveys = (submit st sid).2.surveys := by
  have hl := lookupActive_of_coherent st sid s hdb hact hc
  have h1 : submit st sid =
      (.ok (),
        { db := setKey st.db sid none
          cache := setKey st.cache sid none
          surveys := st.surveys ++ [⟨s.surveyData⟩] }) := by
    simp [submit, hl]
  have h2 : lookupActiveCacheAside (submit st sid).2 sid = none := by
    simp [h1, lookupActiveCacheAside, setKey_same]
  have h3 := submit_of_lookup_none (submit st sid).2 sid h2
  refine ⟨by simp [h1], by simp [h1], ?_, by simp [h3], by simp [h3]⟩
  simp [h1, getStatus, setKey_same]

/-- C1 witness: the concrete store `exStore` holding the single active
session `exActive`. -/
theorem submit_deletes_session_and_finalizes_once_witness :
    (submit exStore "s1").1 = .ok () ∧
    (submit exStore "s1").2.surveys = exStore.surveys ++ [⟨exActive.surveyData⟩] ∧
    (getStatus (submit exStore "s1").2 "s1").1 = .notFound ∧
    (submit (submit exStore "s1").2 "s1").1 = .notFound ∧
    (submit (submit exStore "s1").2 "s1").2.surveys = (submit exStore "s1").2.surveys :=
  submit_deletes_session_and_finalizes_once exStore "s1" exActive
    (by simp [exStore, setKey_same]) rfl (Or.inl rfl)

/-- C2 counterexample: the claim says `abandon` on a session already in a
terminal status fails with not-found, but on the concrete store holding a
`completed` session the handler responds with success. -/
theorem abandon_terminal_counterexample :
    exStoreCompleted.db "s1" = some exCompleted ∧
    exCompleted.status = .completed ∧
    (abandon exStoreCompleted "s1").1 = .ok () ∧
    (abandon exStoreCompleted "s1").1 ≠ ApiResult.notFound := by
  refine ⟨by simp [exStoreCompleted, setKey_same], rfl, ?_, ?_⟩ <;>
    simp [abandon, exStoreCompleted, exCompleted, setKey_same]

/-- C2 amended: `abandon` returns not-found exactly when the session is
absent; when the session exists and is `active` it sets the status to
`abandoned`; when the session exists in any non-active (terminal) status
it responds with success and leaves the store unchanged. -/
theorem abandon_spec (st : Store) (sid : String) :
    (st.db sid = none → abandon st sid = (.notFound, st)) ∧
    (∀ s, st.db sid = some s → s.status = .active →
      abandon st sid =
        (.ok (), { st with db := setKey st.db sid (some { s with status := .abandoned }) })) ∧
    (∀ s, st.db sid = some s → s.status ≠ .active →
      abandon st sid = (.ok (), st)) := by
  refine ⟨fun h => by simp [abandon, h], fun s hs hact => by simp [abandon, hs, hact],
    fun s hs hact => by simp [abandon, hs, hact]⟩

/-- C2 witness: `abandon` on the concrete terminal-status store succeeds
without modifying it. -/
theorem abandon_spec_witness :
    abandon exStoreCompleted "s1" = (.ok (), exStoreCompleted) :=
  (abandon_spec exStoreCompleted "s1").2.2 exCompleted
    (by simp [exStoreCompleted, setKey_same]) (by simp [exCompleted])

/-- C10: the save-progress handler validates `page` before any session
lookup, so even for a `sessionId` with no session in either tier an
out-of-range (or missing) page yields the invalid-page client error — not
not-found — and leaves the store unchanged. -/
theorem saveProgress_validates_page_first
    (st : Store) (sid : String) (page : Option Int) (data : String → Option String)
    (hdb : st.db sid = none) (hcache : st.cache sid = none)
    (hp : pageInvalid page = true) :
    (saveProgress st sid page data).1 = .invalidPage ∧
    (saveProgress st sid page data).1 ≠ ApiResult.notFound ∧
    (saveProgress st sid page data).2 = st := by
  refine ⟨by simp [saveProgress, hp], by simp [saveProgress, hp], by simp [saveProgress, hp]⟩

/-- C10 witness: page 9 on the empty store. -/
theorem saveProgress_validates_page_first_witness :
    (saveProgress exEmptyStore "missing" (some 9) (fun _ => none)).1 = .invalidPage ∧
    (saveProgress exEmptyStore "missing" (some 9) (fun _ => none)).1 ≠ ApiResult.notFound ∧
    (saveProgress exEmptyStore "missing" (some 9) (fun _ => none)).2 = exEmptyStore :=
  saveProgress_validates_page_first exEmptyStore "missing" (some 9) (fun _ => none)
    rfl rfl (by decide)

/-- All sessions held by a map have the schema-default `totalPages = 8`. -/
def MapInv8 (m : String → Option Session) : Prop :=
  ∀ sid s, m sid = some s → s.totalPages = 8

/-- Both tiers of the store satisfy `MapInv8`. -/
def Inv8 (st : Store) : Prop :=
  MapInv8 st.db ∧ MapInv8 st.cache

theorem MapInv8_setKey {m : String → Option Session} (h : MapInv8 m)
    (k : String) (v : Option Session)
    (hv : ∀ s, v = some s → s.totalPages = 8) : MapInv8 (setKey m k v) := by
  intro sid s hs
  by_cases hk : sid = k
  · exact hv s (by simpa [setKey, hk] using hs)
  · exact h sid s (by simpa [setKey, hk] using hs)

theorem Inv8_lookupActive {st : Store} (h : Inv8 st) {sid : String} {s : Session}
    (hl : lookupActiveCacheAside st sid = some s) : s.totalPages = 8 := by
  unfold lookupActiveCacheAside at hl
  rcases hc : st.cache sid with _ | c
  · rw [hc] at hl
    rcases hdb : st.db sid with _ | d
    · rw [hdb] at hl; exact absurd hl (by simp)
    · rw [hdb] at hl
      by_cases hact : d.status = SessionStatus.active
      · simp [hact] at hl; exact hl ▸ h.1 sid d hdb
      · simp [hact] at hl
  · rw [hc] at hl
    simp at hl
    exact hl ▸ h.2 sid c hc

/-- C5: the save-progress page validation rejects — with the invalid-page
client error, leaving the store untouched — exactly when `page` is missing
or outside `[0, 8)`; every session the system creates has
`totalPages = 8` and every operation preserves that invariant, so for the
sessions the system can hold the bound `8` coincides with
`[0, totalPages)` of the session. -/
theorem saveProgress_invalidPage_iff :
    (∀ sid defaults, (mkSession sid defaults).totalPages = 8) ∧
    (∀ st, Inv8 st → ∀ sid defaults page data,
      Inv8 (createSession st sid defaults) ∧
      Inv8 (saveProgress st sid page data).2 ∧
      Inv8 (getStatus st sid).2 ∧
      Inv8 (submit st sid).2 ∧
      Inv8 (abandon st sid).2) ∧
    (∀ st sid page data, pageInvalid page = true →
      saveProgress st sid page data = (.invalidPage, st)) ∧
    (∀ st sid page data, pageInvalid page = false →
      (saveProgress st sid page data).1 ≠ ApiResult.invalidPage) ∧
    (∀ (s : Session), s.totalPages = 8 →
      ∀ page, (pageInvalid page = true ↔
        page = none ∨ ∃ p, page = some p ∧ ¬(0 ≤ p ∧ p < s.totalPages))) := by
  refine ⟨fun _ _ => rfl, ?_, ?_, ?_, ?_⟩
  · intro st hst sid defaults page data
    obtain ⟨hdb, hcache⟩ := hst
    refine ⟨⟨?_, ?_⟩, ?_, ⟨?_, ?_⟩, ⟨?_, ?_⟩, ⟨?_, ?_⟩⟩
    · exact MapInv8_setKey hdb sid _ (fun s hs => by cases hs; rfl)
    · exact MapInv8_setKey hcache sid _ (fun s hs => by cases hs; rfl)
    · -- saveProgress
      by_cases hp : pageInvalid page = true
      · simpa [saveProgress, hp] using And.intro hdb hcache
      · rcases hl : lookupActiveCacheAside st sid with _ | s
        · rcases page with _ | p <;>
            simp [saveProgress, hp, hl] <;> exact ⟨hdb, hcache⟩
        · have hs8 : s.totalPages = 8 := Inv8_lookupActive ⟨hdb, hcache⟩ hl
          rcases page with _ | p
          · simp [saveProgress, hp, hl]; exact ⟨hdb, hcache⟩
          · refine ⟨?_, ?_⟩ <;>
              simp only [saveProgress, hp, hl, Bool.false_eq_true, if_false]
            · exact MapInv8_setKey hdb sid _ (fun s' hs' => by cases hs'; exact hs8)
            · exact MapInv8_setKey hcache sid _ (fun s' hs' => by cases hs'; exact hs8)
    · -- getStatus db tier
      rcases hcc : st.cache sid with _ | c
      · rcases hdbv : st.db sid with _ | d <;> simp [getStatus, hcc, hdbv] <;> exact hdb
      · simp [getStatus, hcc]; exact hdb
    · -- getStatus cache tier
      rcases hcc : st.cache sid with _ | c
      · rcases hdbv : st.db sid with _ | d
        · simp [getStatus, hcc, hdbv]; exact hcache
        · simp only [getStatus, hcc, hdbv]
          exact MapInv8_setKey hcache sid _ (fun s' hs' => by cases hs'; exact hdb sid d hdbv)
      · simp [getStatus, hcc]; exact hcache
    · -- submit db tier
      rcases hl : lookupActiveCacheAside st sid with _ | s
      · simp [submit, hl]; exact hdb
      · simp only [submit, hl]
        exact MapInv8_setKey hdb sid none (fun s' hs' => by cases hs')
    · -- submit cache tier
      rcases hl : lookupActiveCacheAside st sid with _ | s
      · simp [submit, hl]; exact hcache
      · simp only [submit, hl]
        exact MapInv8_setKey hcache sid none (fun s' hs' => by cases hs')
    · -- abandon db tier
      rcases hdbv : st.db sid with _ | d
      · simp [abandon, hdbv]; exact hdb
      · by_cases hact : d.status = SessionStatus.active
        · simp only [abandon, hdbv, hact, if_pos rfl]
          exact MapInv8_setKey hdb sid _ (fun s' hs' => by cases hs'; exact hdb sid d hdbv)
        · simp [abandon, hdbv, hact]; exact hdb
    · -- abandon cache tier
      rcases hdbv : st.db sid with _ | d
      · simp [abandon, hdbv]; exact hcache
      · by_cases hact : d.status = SessionStatus.active <;> simp [abandon, hdbv, hact] <;>
          exact hcache
  · intro st sid page data hp
    simp [saveProgress, hp]
  · intro st sid page data hp
    rcases hl : lookupActiveCacheAside st sid with _ | s <;> rcases page with _ | p <;>
      simp [saveProgress, hp, hl]
  · intro s hs8 page
    rcases page with _ | p
    · simp [pageInvalid]
    · simp only [pageInvalid, hs8, Bool.or_eq_true, decide_eq_true_eq]
      constructor
      · rintro (h | h)
        · exact Or.inr ⟨p, rfl, by omega⟩
        · exact Or.inr ⟨p, rfl, by omega⟩
      · rintro (h | ⟨q, hq, hout⟩)
        · exact absurd h (by simp)
        · cases hq
          omega

/-- C5 witness: page 8 is rejected as invalid on the concrete store of the
fresh session, and page 8 is outside `[0, totalPages)` for that session. -/
theorem saveProgress_invalidPage_iff_witness :
    saveProgress exStore "s1" (some 8) (fun _ => none) = (.invalidPage, exStore) ∧
    (pageInvalid (some 8) = true ↔
      (some 8 : Option Int) = none ∨
        ∃ p, (some 8 : Option Int) = some p ∧ ¬(0 ≤ p ∧ p < exActive.totalPages)) :=
  ⟨saveProgress_invalidPage_iff.2.2.1 exStore "s1" (some 8) (fun _ => none) (by decide),
   saveProgress_invalidPage_iff.2.2.2.2 exActive rfl (some 8)⟩

/-- C3: on an active session (coherent cache), `saveProgress` with a valid
page merges the partial data into `surveyData` field-by-field with the
incoming value winning per field, and sets `currentPage` to the maximum of
the stored and submitted page (so it never decreases); consequently saving
pages 1 then 3 with disjoint partial maps and then reading the status
yields `currentPage = 3` and a `surveyData` that agrees with the
field-wise union of the two partial maps on every field either of them
sets (and keeps the prior value elsewhere). -/
theorem saveProgress_merges_and_maxes :
    (∀ (st : Store) (sid : String) (s : Session) (p : Int)
        (data : String → Option String),
      st.db sid = some s → s.status = .active →
      (st.cache sid = none ∨ st.cache sid = some s) →
      pageInvalid (some p) = false →
      ∃ s1,
        saveProgress st sid (some p) data =
          (.ok s1.currentPage,
            { st with
              db := setKey st.db sid (some s1)
              cache := setKey st.cache sid (some s1) }) ∧
        s1.currentPage = max s.currentPage p ∧
        s.currentPage ≤ s1.currentPage ∧
        (∀ k, s1.surveyData k = mergeData s.surveyData data k)) ∧
    (∀ (st : Store) (sid : String) (s : Session)
        (d1 d2 : String → Option String),
      st.db sid = some s → s.status = .active →
      (st.cache sid = none ∨ st.cache sid = some s) →
      s.currentPage ≤ 3 →
      (∀ k, d1 k = none ∨ d2 k = none) →
      ∃ s2,
        (getStatus (saveProgress (saveProgress st sid (some 1) d1).2
            sid (some 3) d2).2 sid).1 = .ok s2 ∧
        s2.currentPage = 3 ∧
        (∀ k, s2.surveyData k = mergeData (mergeData s.surveyData d1) d2 k) ∧
        (∀ k, (d1 k).isSome ∨ (d2 k).isSome →
          s2.surveyData k = mergeData d1 d2 k) ∧
        (∀ k, d1 k = none → d2 k = none → s2.surveyData k = s.surveyData k)) := by
  have general : ∀ (st : Store) (sid : String) (s : Session) (p : Int)
      (data : String → Option String),
      st.db sid = some s → s.status = .active →
      (st.cache sid = none ∨ st.cache sid = some s) →
      pageInvalid (some p) = false →
      saveProgress st sid (some p) data =
        (.ok (max s.currentPage p),
          { st with
            db := setKey st.db sid (some { s with
              surveyData := mergeData s.surveyData data
              currentPage := max s.currentPage p })
            cache := setKey st.cache sid (some { s with
              surveyData := mergeData s.surveyData data
              currentPage := max s.currentPage p }) }) := by
    intro st sid s p data hdb hact hc hp
    have hl := lookupActive_of_coherent st sid s hdb hact hc
    simp [saveProgress, hp, hl]
  constructor
  · intro st sid s p data hdb hact hc hp
    exact ⟨{ s with
        surveyData := mergeData s.surveyData data
        currentPage := max s.currentPage p },
      general st sid s p data hdb hact hc hp, rfl, le_max_left _ _, fun k => rfl⟩
  · intro st sid s d1 d2 hdb hact hc hcp hdisj
    have hp1 : pageInvalid (some 1) = false := by decide
    have hp3 : pageInvalid (some 3) = false := by decide
    have h1 := general st sid s 1 d1 hdb hact hc hp1
    set s1 : Session := { s with
      surveyData := mergeData s.surveyData d1
      currentPage := max s.currentPage 1 } with hs1
    have hdb1 : (saveProgress st sid (some 1) d1).2.db sid = some s1 := by
      rw [h1]; exact setKey_same _ _ _
    have hc1 : (saveProgress st sid (some 1) d1).2.cache sid = some s1 := by
      rw [h1]; exact setKey_same _ _ _
    have h2 := general (saveProgress st sid (some 1) d1).2 sid s1 3 d2
      hdb1 hact (Or.inr hc1) hp3
    set s2 : Session := { s1 with
      surveyData := mergeData s1.surveyData d2
      currentPage := max s1.currentPage 3 } with hs2
    have hc2 : (saveProgress (saveProgress st sid (some 1) d1).2
        sid (some 3) d2).2.cache sid = some s2 := by
      rw [h2]; exact setKey_same _ _ _
    refine ⟨s2, by simp [getStatus, hc2], ?_, fun k => rfl, ?_, ?_⟩
    · show max (max s.currentPage 1) 3 = 3
      omega
    · intro k hk
      rcases hdisj k with hd1 | hd2
      · rcases hk with hk | hk
        · rw [hd1] at hk; exact absurd hk (by simp)
        · rcases hv : d2 k with _ | v
          · rw [hv] at hk; exact absurd hk (by simp)
          · show mergeData (mergeData s.surveyData d1) d2 k = mergeData d1 d2 k
            simp [mergeData, hv]
      · rcases hv : d1 k with _ | v
        · rcases hk with hk | hk
          · rw [hv] at hk; exact absurd hk (by simp)
          · rw [hd2] at hk; exact absurd hk (by simp)
        · show mergeData (mergeData s.surveyData d1) d2 k = mergeData d1 d2 k
          simp [mergeData, hd2, hv]
    · intro k hd1 hd2
      show mergeData (mergeData s.surveyData d1) d2 k = s.surveyData k
      simp [mergeData, hd1, hd2]

/-- C3 witness: on the fresh session `exActive` (page 0, empty data),
saving `{a ↦ 1}` at page 1 then `{b ↦ 2}` at page 3 and reading the
status yields `currentPage = 3` and the union of the two maps. -/
theorem saveProgress_merges_and_maxes_witness :
    ∃ s2,
      (getStatus (saveProgress (saveProgress exStore "s1"
          (some 1) (fun k => if k = "a" then some "1" else none)).2
          "s1" (some 3) (fun k => if k = "b" then some "2" else none)).2 "s1").1 =
        .ok s2 ∧
      s2.currentPage = 3 ∧
      (∀ k, s2.surveyData k =
        mergeData (mergeData exActive.surveyData
          (fun k => if k = "a" then some "1" else none))
          (fun k => if k = "b" then some "2" else none) k) ∧
      (∀ k, ((fun k => if k = "a" then some "1" else none) k).isSome ∨
          ((fun k => if k = "b" then some "2" else none) k).isSome →
        s2.surveyData k =
          mergeData (fun k => if k = "a" then some "1" else none)
            (fun k => if k = "b" then some "2" else none) k) ∧
      (∀ k, (if k = "a" then some "1" else none) = none →
        (if k = "b" then some "2" else none) = none →
        s2.surveyData k = exActive.surveyData k) :=
  saveProgress_merges_and_maxes.2 exStore "s1" exActive
    (fun k => if k = "a" then some "1" else none)
    (fun k => if k = "b" then some "2" else none)
    (by simp [exStore, setKey_same]) rfl (Or.inl rfl) (by norm_num [exActive, mkSession])
    (fun k => by by_cases h : k = "a" <;> by_cases h2 : k = "b" <;> simp_all)

/-- Reachability invariant of the breaker: whenever it is not CLOSED (OPEN
or HALF_OPEN), the consecutive-failure count has reached the threshold
(`onSuccess` resets both; only `onFailure` leaves CLOSED). -/
def CBInv (cb : CircuitBreaker) : Prop :=
  cb.state ≠ .CLOSED → cb.failureThreshold ≤ cb.failureCount

/-- C4: the circuit breaker state machine.  It starts CLOSED with zero
failures; while OPEN within the cooldown every call is rejected without
invoking the wrapped operation and the state is unchanged; once the
cooldown has elapsed exactly one trial call is admitted (through
HALF_OPEN): a successful trial closes the breaker and clears the failure
count, a failed trial reopens it and restarts the cooldown from the
current time.  An invoked call moves the breaker to OPEN exactly when the
incremented consecutive-failure count reaches the threshold, and any
successful call closes it with count zero.  The invariant `CBInv` (the
count is at or past the threshold whenever the breaker is not CLOSED)
holds initially and is preserved by every call. -/
theorem circuitBreaker_state_machine :
    (∀ (t : Nat) (cd : Int), (CircuitBreaker.init t cd).state = .CLOSED ∧
      (CircuitBreaker.init t cd).failureCount = 0 ∧ CBInv (CircuitBreaker.init t cd)) ∧
    (∀ (cb : CircuitBreaker) (now : Int) (b : Bool), cb.state = .OPEN →
      now - (cb.lastFailureTime.getD 0) ≤ cb.timeout →
      cb.execute now b = (.rejected, cb)) ∧
    (∀ (cb : CircuitBreaker) (now : Int), cb.state = .OPEN →
      cb.timeout < now - (cb.lastFailureTime.getD 0) →
      (cb.execute now true =
        (.succeeded, { cb with state := .CLOSED, failureCount := 0 }) ∧
       (CBInv cb →
        (cb.execute now false).1 = .failed ∧
        (cb.execute now false).2.state = .OPEN ∧
        (cb.execute now false).2.lastFailureTime = some now))) ∧
    (∀ (cb : CircuitBreaker) (now : Int), cb.state ≠ .OPEN →
      (((cb.execute now false).2.state = .OPEN ↔
          cb.failureThreshold ≤ cb.failureCount + 1) ∧
        (cb.execute now false).2.failureCount = cb.failureCount + 1 ∧
        (cb.execute now false).1 = .failed ∧
        cb.execute now true =
          (.succeeded, { cb with state := .CLOSED, failureCount := 0 }))) ∧
    (∀ (cb : CircuitBreaker) (now : Int) (b : Bool),
      CBInv cb → CBInv (cb.execute now b).2) := by
  refine ⟨fun t cd => ⟨rfl, rfl, fun h => absurd rfl h⟩, ?_, ?_, ?_, ?_⟩
  · intro cb now b hopen hcool
    simp [CircuitBreaker.execute, hopen, not_lt.mpr hcool]
  · intro cb now hopen hcool
    constructor
    · simp [CircuitBreaker.execute, hopen, hcool, CircuitBreaker.onSuccess]
    · intro hinv
      have hth : cb.failureThreshold ≤ cb.failureCount + 1 :=
        le_trans (hinv (by simp [hopen])) (Nat.le_succ _)
      refine ⟨?_, ?_, ?_⟩ <;>
        simp [CircuitBreaker.execute, hopen, hcool, CircuitBreaker.onFailure, hth]
  · intro cb now hnopen
    have main : ∀ hst : cb.state = .CLOSED ∨ cb.state = .HALF_OPEN,
        cb.execute now false = (.failed, cb.onFailure now) ∧
        cb.execute now true = (.succeeded, cb.onSuccess) := by
      rintro (hst | hst) <;>
        exact ⟨by simp [CircuitBreaker.execute, hst], by simp [CircuitBreaker.execute, hst]⟩
    have hst : cb.state = .CLOSED ∨ cb.state = .HALF_OPEN := by
      rcases h : cb.state with _ | _ | _
      · exact Or.inl rfl
      · exact absurd h hnopen
      · exact Or.inr rfl
    obtain ⟨hf, hsucc⟩ := main hst
    refine ⟨?_, ?_, ?_, ?_⟩
    · rw [hf]
      show (if cb.failureThreshold ≤ cb.failureCount + 1 then CBState.OPEN
        else cb.state) = .OPEN ↔ cb.failureThreshold ≤ cb.failureCount + 1
      by_cases hth : cb.failureThreshold ≤ cb.failureCount + 1
      · simp [hth]
      · rcases hst with hst | hst <;> simp [hth, hst]
    · rw [hf]
      rfl
    · rw [hf]
    · rw [hsucc]
      rfl
  · intro cb now b hinv
    rcases hst : cb.state with _ | _ | _ <;> rcases b with _ | _
    · -- CLOSED, failure
      have hf : cb.execute now false = (.failed, cb.onFailure now) := by
        simp [CircuitBreaker.execute, hst]
      rw [hf]
      intro h
      by_cases hth : cb.failureThreshold ≤ cb.failureCount + 1
      · exact hth
      · exact absurd (show (cb.onFailure now).state = .CLOSED by
          simp [CircuitBreaker.onFailure, hth, hst]) h
    · -- CLOSED, success
      have hsucc : cb.execute now true = (.succeeded, cb.onSuccess) := by
        simp [CircuitBreaker.execute, hst]
      rw [hsucc]
      intro h
      exact absurd rfl h
    · -- OPEN, failure
      by_cases hcool : cb.timeout < now - (cb.lastFailureTime.getD 0)
      · have hf : cb.execute now false =
            (.failed, ({ cb with state := CBState.HALF_OPEN }).onFailure now) := by
          simp [CircuitBreaker.execute, hst, hcool]
        rw [hf]
        intro _
        exact le_trans (hinv (by simp [hst])) (Nat.le_succ _)
      · have hf : cb.execute now false = (.rejected, cb) := by
          simp [CircuitBreaker.execute, hst, hcool]
        rw [hf]
        exact hinv
    · -- OPEN, success
      by_cases hcool : cb.timeout < now - (cb.lastFailureTime.getD 0)
      · have hsucc : cb.execute now true =
            (.succeeded, ({ cb with state := CBState.HALF_OPEN }).onSuccess) := by
          simp [CircuitBreaker.execute, hst, hcool]
        rw [hsucc]
        intro h
        exact absurd rfl h
      · have hsucc : cb.execute now true = (.rejected, cb) := by
          simp [CircuitBreaker.execute, hst, hcool]
        rw [hsucc]
        exact hinv
    · -- HALF_OPEN, failure
      have hf : cb.execute now false = (.failed, cb.onFailure now) := by
        simp [CircuitBreaker.execute, hst]
      rw [hf]
      intro _
      exact le_trans (hinv (by simp [hst])) (Nat.le_succ _)
    · -- HALF_OPEN, success
      have hsucc : cb.execute now true = (.succeeded, cb.onSuccess) := by
        simp [CircuitBreaker.execute, hst]
      rw [hsucc]
      intro h
      exact absurd rfl h

/-- A breaker that has just tripped OPEN (threshold 5 reached, last
failure at time 1000, cooldown 60000). -/
def exBreaker : CircuitBreaker :=
  { failureThreshold := 5
    timeout := 60000
    failureCount := 5
    lastFailureTime := some 1000
    state := .OPEN }

/-- C4 witness: within the cooldown the OPEN breaker `exBreaker` rejects a
call without invoking the operation and is left unchanged. -/
theorem circuitBreaker_state_machine_witness :
    CircuitBreaker.execute exBreaker 2000 true = (.rejected, exBreaker) :=
  circuitBreaker_state_machine.2.1 exBreaker 2000 true rfl (by decide)

/-- C6 counterexample: the claim says a server-error outcome (status ≥
500) yields risk `high` for every audited request, but for a DELETE
request returning status 500 `calculateRisk` yields `medium` (the
destructive-method rule is checked later and overwrites the earlier
assignment). -/
theorem calculateRisk_counterexample :
    (500 : Int) ≤ 500 ∧
    calculateRisk "DELETE" "/api/session/abc" none 500 50 = "medium" ∧
    ("medium" : String) ≠ "high" := by
  refine ⟨le_refl _, rfl, by decide⟩

/-- C6 amended: the risk rules are applied in source order with each later
matching rule overwriting the earlier assignment (and an additional rule,
absent from the claim, marks requests from an admin-role user `medium`).
For a non-admin requester: a server-error outcome or an over-threshold
latency yields `high` only when the method is not DELETE; a DELETE request
yields `medium` even when the response is a server error or slow; a POST
to an admin path yields `high`. -/
theorem calculateRisk_rules (method url : String) (userRole : Option String)
    (statusCode responseTime : Int) (hrole : userRole ≠ some "admin") :
    (500 ≤ statusCode → method ≠ "DELETE" →
      calculateRisk method url userRole statusCode responseTime = "high") ∧
    (10000 < responseTime → method ≠ "DELETE" →
      calculateRisk method url userRole statusCode responseTime = "high") ∧
    (method = "DELETE" →
      calculateRisk method url userRole statusCode responseTime = "medium") ∧
    (method = "POST" → urlHasAdmin url = true →
      calculateRisk method url userRole statusCode responseTime = "high") := by
  refine ⟨?_, ?_, ?_, ?_⟩
  · intro h500 hdel
    by_cases hpost : method = "POST" ∧ urlHasAdmin url = true
    · simp [calculateRisk, hrole, hdel, hpost.1, hpost.2]
    · rcases not_and_or.mp hpost with hpost | hpost <;>
        by_cases hrt : (10000 : Int) < responseTime <;>
        simp [calculateRisk, hrole, hdel, hpost, h500, hrt]
  · intro hrt hdel
    by_cases hpost : method = "POST" ∧ urlHasAdmin url = true
    · simp [calculateRisk, hrole, hdel, hpost.1, hpost.2]
    · rcases not_and_or.mp hpost with hpost | hpost <;>
        by_cases h500 : (500 : Int) ≤ statusCode <;>
        simp [calculateRisk, hrole, hdel, hpost, h500, hrt]
  · intro hdel
    have hpost : method ≠ "POST" := by rw [hdel]; decide
    by_cases h500 : (500 : Int) ≤ statusCode <;>
      by_cases hrt : (10000 : Int) < responseTime <;>
      simp [calculateRisk, hrole, hdel, hpost, h500, hrt]
  · intro hpost hadmin
    simp [calculateRisk, hrole, hpost, hadmin]

/-- C6 amended witness: a non-admin GET returning status 500 quickly is
scored `high`. -/
theorem calculateRisk_rules_witness :
    calculateRisk "GET" "/api/session/abc" none 500 50 = "high" :=
  (calculateRisk_rules "GET" "/api/session/abc" none 500 50 (by decide)).1
    (by norm_num) (by decide)

/-- C7 counterexample: the claim says the aggregate is the worst-of of the
individual probe statuses for every set of probe results, but with the
`IGNORE_CACHE_HEALTH` flag set an unhealthy cache probe is replaced by a
synthetic healthy result, making the aggregate healthy while the worst-of
of the probes is unhealthy. -/
theorem healthAggregation_counterexample :
    (performHealthCheck true .healthy .unhealthy .healthy .healthy).1 = .healthy ∧
    overallStatus [.healthy, .unhealthy, .healthy, .healthy] = .unhealthy ∧
    Health.healthy ≠ Health.unhealthy := by
  refine ⟨by decide, by decide, by decide⟩

/-- C7 amended: the aggregate is the worst-of of the individual probe
statuses unless the `IGNORE_CACHE_HEALTH` flag is set, in which case the
cache probe's result is replaced by healthy before aggregation.  An
unhealthy durable-store probe with a healthy cache probe still makes the
aggregate unhealthy under either flag value and makes readiness false, and
readiness holds exactly when both the durable-store and cache probes
report healthy. -/
theorem healthAggregation_spec :
    (∀ results : List Health,
      (overallStatus results = .unhealthy ↔ Health.unhealthy ∈ results) ∧
      (overallStatus results = .degraded ↔
        Health.unhealthy ∉ results ∧ Health.degraded ∈ results) ∧
      (∀ h ∈ results, healthRank h ≤ healthRank (overallStatus results))) ∧
    (∀ (flag : Bool) (db cache app sys : Health),
      db = .unhealthy → cache = .healthy →
      (performHealthCheck flag db cache app sys).1 = .unhealthy ∧
      readiness db cache = false) ∧
    (∀ db cache app sys : Health,
      (performHealthCheck false db cache app sys).1 =
        overallStatus [db, cache, app, sys]) ∧
    (∀ db cache app sys : Health,
      (performHealthCheck true db cache app sys).1 =
        overallStatus [db, Health.healthy, app, sys]) ∧
    (∀ db cache : Health,
      readiness db cache = true ↔ db = .healthy ∧ cache = .healthy) := by
  have hcu : ∀ results : List Health,
      (0 < results.countP (· = Health.unhealthy)) ↔ Health.unhealthy ∈ results := by
    intro results
    rw [List.countP_pos_iff]
    simp
  have hcd : ∀ results : List Health,
      (0 < results.countP (· = Health.degraded)) ↔ Health.degraded ∈ results := by
    intro results
    rw [List.countP_pos_iff]
    simp
  have hu : ∀ results : List Health,
      (overallStatus results = .unhealthy ↔ Health.unhealthy ∈ results) := by
    intro results
    by_cases hmem : Health.unhealthy ∈ results
    · simp [overallStatus, (hcu results).mpr hmem, hmem]
    · have : ¬ 0 < results.countP (· = Health.unhealthy) := fun h => hmem ((hcu results).mp h)
      by_cases hmd : 0 < results.countP (· = Health.degraded) <;>
        simp [overallStatus, this, hmd, hmem]
  have hd : ∀ results : List Health,
      (overallStatus results = .degraded ↔
        Health.unhealthy ∉ results ∧ Health.degraded ∈ results) := by
    intro results
    by_cases hmem : Health.unhealthy ∈ results
    · simp [overallStatus, (hcu results).mpr hmem, hmem]
    · have hnc : ¬ 0 < results.countP (· = Health.unhealthy) :=
        fun h => hmem ((hcu results).mp h)
      by_cases hmd : Health.degraded ∈ results
      · simp [overallStatus, hnc, (hcd results).mpr hmd, hmem, hmd]
      · have hnd : ¬ 0 < results.countP (· = Health.degraded) :=
          fun h => hmd ((hcd results).mp h)
        simp [overallStatus, hnc, hnd, hmem, hmd]
  refine ⟨?_, ?_, ?_, ?_, ?_⟩
  · intro results
    refine ⟨hu results, hd results, ?_⟩
    intro h hmem
    rcases h with _ | _ | _
    · exact Nat.zero_le _
    · by_cases hum : Health.unhealthy ∈ results
      · rw [(hu results).mpr hum]
        decide
      · rw [(hd results).mpr ⟨hum, hmem⟩]
    · rw [(hu results).mpr hmem]
  · intro flag db cache app sys hdb hcache
    subst hdb; subst hcache
    constructor
    · rcases flag with _ | _ <;>
      · show overallStatus _ = _
        rw [(hu _).mpr (by simp)]
    · rfl
  · intro db cache app sys
    rfl
  · intro db cache app sys
    rfl
  · intro db cache
    simp [readiness]

/-- C7 amended witness: unhealthy durable store + healthy cache (flag
off) aggregates to unhealthy and is not ready. -/
theorem healthAggregation_spec_witness :
    (performHealthCheck false .unhealthy .healthy .healthy .healthy).1 = .unhealthy ∧
    readiness .unhealthy .healthy = false :=
  healthAggregation_spec.2.1 false .unhealthy .healthy .healthy .healthy rfl rfl

theorem writeAll_append (sz : List Nat → Nat) (cap : Nat) (st : AuditLog)
    (l1 l2 : List Nat) :
    writeAll sz cap st (l1 ++ l2) = writeAll sz cap (writeAll sz cap st l1) l2 :=
  List.foldl_append _ _ _ _

theorem writeAll_no_rotation (sz : List Nat → Nat) (cap : Nat) (es : List Nat)
    (h : ∀ j, j ≤ es.length → sz (es.take j) ≤ cap) :
    writeAll sz cap ⟨[], []⟩ es = ⟨es, []⟩ := by
  induction es using List.reverseRecOn with
  | nil => rfl
  | append_singleton l x ih =>
    rw [writeAll_append]
    have hl : ∀ j, j ≤ l.length → sz (l.take j) ≤ cap := by
      intro j hj
      have hfull := h j (by simp; omega)
      rwa [List.take_append_of_le_length hj] at hfull
    rw [ih hl]
    have hsz : sz (l ++ [x]) ≤ cap := by
      have hfull := h (l ++ [x]).length (le_refl _)
      rwa [List.take_length] at hfull
    show writeToLogFile sz cap ⟨l, []⟩ x = _
    simp [writeToLogFile, Nat.not_lt.mpr hsz]

/-- C8: audit rotation.  (i) Conservation: for every sequence of events
logged through `writeToLogFile`, the concatenation of all archived files'
entries with the active file's entries equals the prior content followed
by the logged events — rotation neither loses nor duplicates an entry.
(ii) If every proper prefix of the day's events fits in the size cap and
the full sequence exceeds it, exactly one rotation happens: the earlier
events end up in a single archive and the active file holds exactly the
final event. -/
theorem auditLog_rotation :
    (∀ (sz : List Nat → Nat) (cap : Nat) (st : AuditLog) (es : List Nat),
      (writeAll sz cap st es).archives.flatten ++ (writeAll sz cap st es).active =
        st.archives.flatten ++ st.active ++ es) ∧
    (∀ (sz : List Nat → Nat) (cap : Nat) (es : List Nat) (e : Nat),
      (∀ j, j ≤ es.length → sz (es.take j) ≤ cap) →
      cap < sz (es ++ [e]) →
      writeAll sz cap ⟨[], []⟩ (es ++ [e]) = ⟨[e], [es]⟩) := by
  constructor
  · intro sz cap st es
    induction es generalizing st with
    | nil => simp [writeAll]
    | cons e es ih =>
      have hstep : writeAll sz cap st (e :: es) =
          writeAll sz cap (writeToLogFile sz cap st e) es := rfl
      rw [hstep, ih (writeToLogFile sz cap st e)]
      by_cases hrot : cap < sz (st.active ++ [e]) <;>
        simp [writeToLogFile, hrot]
  · intro sz cap es e h hover
    rw [writeAll_append, writeAll_no_rotation sz cap es h]
    show writeToLogFile sz cap ⟨es, []⟩ e = _
    simp [writeToLogFile, hover]

/-- C8 witness: with entry sizes measured by count and a cap of 2, logging
`[1, 2, 3]` rotates exactly once, archiving `[1, 2]` and starting the
fresh log with `[3]`. -/
theorem auditLog_rotation_witness :
    writeAll List.length 2 ⟨[], []⟩ ([1, 2] ++ [3]) = ⟨[3], [[1, 2]]⟩ :=
  auditLog_rotation.2 List.length 2 [1, 2] 3 (by decide) (by decide)

theorem retryFrom_calls_le {E A : Type} (op : Nat → Except E A) (delay : Nat) :
    ∀ (remaining attempt : Nat),
      (retryFrom op delay attempt remaining).2.1 ≤ remaining := by
  intro remaining
  induction remaining with
  | zero => intro attempt; simp [retryFrom]
  | succ n ih =>
    intro attempt
    rcases hop : op attempt with e | v
    · by_cases hn : n = 0
      · simp [retryFrom, hop, hn]
      · simp only [retryFrom, hop, if_neg hn]
        exact Nat.succ_le_succ (ih (attempt + 1))
    · simp [retryFrom, hop]

theorem retryFrom_first_success {E A : Type} (op : Nat → Except E A) (delay : Nat) :
    ∀ (m attempt remaining : Nat) (v : A), m < remaining →
      (∀ i, i < m → ∃ e, op (attempt + i) = .error e) →
      op (attempt + m) = .ok v →
      retryFrom op delay attempt remaining =
        (some (.ok v), m + 1,
          (List.range m).map (fun i => delay * 2 ^ (attempt + i - 1))) := by
  intro m
  induction m with
  | zero =>
    intro attempt remaining v hlt hfail hok
    rcases remaining with _ | r
    · omega
    · simp [retryFrom, show op attempt = .ok v by simpa using hok]
  | succ m ih =>
    intro attempt remaining v hlt hfail hok
    rcases remaining with _ | r
    · omega
    obtain ⟨e, he⟩ := hfail 0 (Nat.succ_pos m)
    have he' : op attempt = .error e := by simpa using he
    have hr : r ≠ 0 := by omega
    have hrec := ih (attempt + 1) r v (by omega)
      (fun i hi => by
        obtain ⟨e', he''⟩ := hfail (i + 1) (by omega)
        exact ⟨e', by rw [show attempt + 1 + i = attempt + (i + 1) by omega]; exact he''⟩)
      (by rw [show attempt + 1 + m = attempt + (m + 1) by omega]; exact hok)
    have hlist : delay * 2 ^ (attempt - 1) ::
        (List.range m).map (fun i => delay * 2 ^ (attempt + 1 + i - 1)) =
        (List.range (m + 1)).map (fun i => delay * 2 ^ (attempt + i - 1)) := by
      rw [List.range_succ_eq_map, List.map_cons, List.map_map]
      refine congrArg₂ _ (by simp) ?_
      · apply List.map_congr_left
        intro i _
        show delay * 2 ^ (attempt + 1 + i - 1) = delay * 2 ^ (attempt + (i + 1) - 1)
        congr 2
        omega
    simp only [retryFrom, he', if_neg hr, hrec, hlist]

theorem retryFrom_all_fail {E A : Type} (op : Nat → Except E A) (delay : Nat) :
    ∀ (remaining attempt : Nat) (e : E), 1 ≤ remaining →
      (∀ i, i < remaining → ∃ err, op (attempt + i) = .error err) →
      op (attempt + (remaining - 1)) = .error e →
      retryFrom op delay attempt remaining =
        (some (.error e), remaining,
          (List.range (remaining - 1)).map (fun i => delay * 2 ^ (attempt + i - 1))) := by
  intro remaining
  induction remaining with
  | zero => intro attempt e h1; omega
  | succ r ih =>
    intro attempt e h1 hfail hlast
    rcases Nat.eq_zero_or_pos r with hr | hr
    · subst hr
      have he : op attempt = .error e := by simpa using hlast
      simp [retryFrom, he]
    · obtain ⟨e0, he0⟩ := hfail 0 (by omega)
      have he0' : op attempt = .error e0 := by simpa using he0
      have hrec := ih (attempt + 1) e hr
        (fun i hi => by
          obtain ⟨e', he''⟩ := hfail (i + 1) (by omega)
          exact ⟨e', by rw [show attempt + 1 + i = attempt + (i + 1) by omega]; exact he''⟩)
        (by rw [show attempt + 1 + (r - 1) = attempt + (r + 1 - 1) by omega]; exact hlast)
      have hlist : delay * 2 ^ (attempt - 1) ::
          (List.range (r - 1)).map (fun i => delay * 2 ^ (attempt + 1 + i - 1)) =
          (List.range (r + 1 - 1)).map (fun i => delay * 2 ^ (attempt + i - 1)) := by
        rw [show r + 1 - 1 = (r - 1) + 1 by omega,
          List.range_succ_eq_map, List.map_cons, List.map_map]
        refine congrArg₂ _ (by simp) ?_
        · apply List.map_congr_left
          intro i _
          show delay * 2 ^ (attempt + 1 + i - 1) = delay * 2 ^ (attempt + (i + 1) - 1)
          congr 2
          omega
      simp only [retryFrom, he0', if_neg (by omega : ¬ r = 0), hrec, hlist]

/-- C9: the retry wrapper invokes the operation at most `maxRetries`
times; it returns the result of the first successful attempt `k` having
made exactly `k` invocations, with exponential-backoff waits
`delay * 2 ^ (attempt - 1)` between consecutive attempts; and when all
`maxRetries` attempts fail it surfaces the last attempt's error after
exactly `maxRetries` invocations. -/
theorem retryOperation_spec (E A : Type) :
    (∀ (op : Nat → Except E A) (maxRetries delay : Nat),
      (retryOperation op maxRetries delay).2.1 ≤ maxRetries) ∧
    (∀ (op : Nat → Except E A) (maxRetries delay k : Nat) (v : A),
      1 ≤ k → k ≤ maxRetries →
      (∀ j, 1 ≤ j → j < k → ∃ e, op j = .error e) →
      op k = .ok v →
      retryOperation op maxRetries delay =
        (some (.ok v), k, (List.range (k - 1)).map (fun i => delay * 2 ^ i))) ∧
    (∀ (op : Nat → Except E A) (maxRetries delay : Nat) (e : E),
      1 ≤ maxRetries →
      (∀ j, 1 ≤ j → j ≤ maxRetries → ∃ err, op j = .error err) →
      op maxRetries = .error e →
      retryOperation op maxRetries delay =
        (some (.error e), maxRetries,
          (List.range (maxRetries - 1)).map (fun i => delay * 2 ^ i))) := by
  refine ⟨?_, ?_, ?_⟩
  · intro op maxRetries delay
    exact retryFrom_calls_le op delay maxRetries 1
  · intro op maxRetries delay k v hk1 hkN hfail hok
    have h := retryFrom_first_success op delay (k - 1) 1 maxRetries v (by omega)
      (fun i hi => hfail (1 + i) (by omega) (by omega))
      (by rw [show 1 + (k - 1) = k by omega]; exact hok)
    rw [retryOperation, h, show k - 1 + 1 = k by omega]
    refine congrArg _ (congrArg _ ?_)
    apply List.map_congr_left
    intro i _
    congr 2
    omega
  · intro op maxRetries delay e hN hfail hlast
    have h := retryFrom_all_fail op delay maxRetries 1 e hN
      (fun i hi => hfail (1 + i) (by omega) (by omega))
      (by rw [show 1 + (maxRetries - 1) = maxRetries by omega]; exact hlast)
    rw [retryOperation, h]
    refine congrArg _ (congrArg _ ?_)
    apply List.map_congr_left
    intro i _
    congr 2
    omega

/-- C9 witness: with attempts 1 and 2 failing and attempt 3 succeeding,
three attempts with base delay 1000 return the success after exactly 3
invocations and waits 1000 and 2000. -/
theorem retryOperation_spec_witness :
    retryOperation (fun j => if j < 3 then Except.error "boom" else Except.ok 42) 3 1000 =
      (some (.ok 42), 3, (List.range 2).map (fun i => 1000 * 2 ^ i)) :=
  (retryOperation_spec String Nat).2.1
    (fun j => if j < 3 then Except.error "boom" else Except.ok 42) 3 1000 3 42
    (by omega) (by omega)
    (fun j h1 h2 => ⟨"boom", by
      have : j = 1 ∨ j = 2 := by omega
      rcases this with h | h <;> subst h <;> rfl⟩)
    (by rfl)
